import Mathlib

/-!
Shallow embedding of the PubMed paper-fetching pipeline of `cli.py`
(`pubmed_fetcher.fetch_pubmed_data`): an XML element model with
ElementTree-style lookups, the `PHARMA_KEYWORDS` affiliation classifier,
the email regular-expression search, per-record extraction, and the
two-stage search-and-fetch orchestrator.  Strings are handled through
their character lists so that every definition evaluates inside the
kernel.
-/

/-! ## XML element model -/

/-!
An XML element as exposed by `xml.etree.ElementTree`: a tag, optional
text, and an ordered sequence of child elements.  The child sequence is
encoded by the companion type `Forest` (isomorphic to `List Elem`) so that
traversals can be defined by mutual structural recursion.
-/
mutual
inductive Elem : Type where
  | mk (tag : String) (text : Option String) (children : Forest)

inductive Forest : Type where
  | nil : Forest
  | cons (e : Elem) (f : Forest) : Forest
end

def Forest.toList : Forest → List Elem
  | .nil => []
  | .cons e f => e :: f.toList

def Forest.ofList : List Elem → Forest
  | [] => .nil
  | e :: l => .cons e (Forest.ofList l)

/-- Build an element from a plain list of children. -/
def elem (tag : String) (text : Option String) (children : List Elem) : Elem :=
  Elem.mk tag text (Forest.ofList children)

def Elem.tag : Elem → String
  | .mk t _ _ => t

def Elem.text : Elem → Option String
  | .mk _ x _ => x

def Elem.children : Elem → List Elem
  | .mk _ _ f => f.toList

/-!
All proper descendants of an element (`descE`), resp. all elements of a
forest together with their descendants (`descF`), in document (pre-)order.
This is the enumeration an ElementTree `.//` walk produces.
-/
mutual
def descE : Elem → List Elem
  | .mk _ _ f => descF f

def descF : Forest → List Elem
  | .nil => []
  | .cons e f => e :: descE e ++ descF f
end

/-- All proper descendants of an element in document order (`.//` scope). -/
def descElems (e : Elem) : List Elem :=
  descE e

/-- First descendant with the given tag: `element.find(".//tag")`. -/
def findDesc (e : Elem) (tag : String) : Option Elem :=
  (descElems e).find? (fun c => c.tag == tag)

/-- All descendants with the given tag: `element.findall(".//tag")`. -/
def findAllDesc (e : Elem) (tag : String) : List Elem :=
  (descElems e).filter (fun c => c.tag == tag)

/-- First direct child with the given tag: `element.find("tag")`. -/
def findChild (e : Elem) (tag : String) : Option Elem :=
  e.children.find? (fun c => c.tag == tag)

/-- `element.findtext(".//tag")`: text of the first matching descendant
(`""` when that element has no text), `none` when there is no match. -/
def findtextDesc (e : Elem) (tag : String) : Option String :=
  (findDesc e tag).map (fun c => c.text.getD "")

/-- `element.findtext("tag")` over direct children, default `None`. -/
def findtextChild (e : Elem) (tag : String) : Option String :=
  (findChild e tag).map (fun c => c.text.getD "")

/-- `element.findtext("tag", dflt)` over direct children. -/
def findtextChildD (e : Elem) (tag : String) (dflt : String) : String :=
  match findChild e tag with
  | none => dflt
  | some c => c.text.getD ""

/-! ## String helpers (kernel-computable stand-ins for the Python string
operations used by the source) -/

/-- Python `str.lower()` (on the ASCII range relevant to the keyword set). -/
def lowerStr (s : String) : String :=
  String.mk (s.data.map Char.toLower)

/-- Python `str.strip()`: drop whitespace from both ends. -/
def trimStr (s : String) : String :=
  String.mk (((s.data.dropWhile Char.isWhitespace).reverse.dropWhile
    Char.isWhitespace).reverse)

/-- Substring test on character lists; `hasSubstr n h` is Python `n in h`. -/
def hasSubstr (needle : List Char) : List Char → Bool
  | [] => needle.isEmpty
  | c :: t => needle.isPrefixOf (c :: t) || hasSubstr needle t

/-- Lexicographic (code-point) comparison of character lists, the order
Python `sorted` applies to strings. -/
def lexLe : List Char → List Char → Bool
  | [], _ => true
  | _ :: _, [] => false
  | c :: cs, d :: ds =>
    if c.toNat < d.toNat then true
    else if d.toNat < c.toNat then false
    else lexLe cs ds

/-- Lexicographic order on strings as a decidable relation. -/
def strLeRel (a b : String) : Prop :=
  lexLe a.data b.data = true

instance : DecidableRel strLeRel :=
  fun a b => instDecidableEqBool (lexLe a.data b.data) true

/-- `"; ".join(l)`. -/
def joinSemi : List String → String
  | [] => ""
  | [x] => x
  | x :: y :: t => x ++ "; " ++ joinSemi (y :: t)

/-! ## Affiliation classifier -/

/-- The fixed keyword list from the source. -/
def PHARMA_KEYWORDS : List String :=
  ["pharma", "biotech", "therapeutics", "genomics", "diagnostics",
   "inc", "corp", "ltd", "gmbh", "s.a.", "s.r.l", "pharmaceutical",
   "biotechnology"]

/-- The classifying condition of the per-author branch:
`affil and any(k.lower() in affil.lower() for k in PHARMA_KEYWORDS)`.
A `None` or empty affiliation is falsy in Python, hence rejected. -/
def is_commercial (affil : Option String) : Bool :=
  match affil with
  | none => false
  | some s =>
    (!(s == "")) &&
      PHARMA_KEYWORDS.any (fun k => hasSubstr (lowerStr k).data (lowerStr s).data)

/-! ## Email search
`re.search(r"[a-zA-Z0-9._%+-]+@[a-zA-Z0-9.-]+\.[a-zA-Z]{2,}", text)` with
the Python leftmost-match, greedy-with-backtracking semantics.  Since `@`
belongs to neither character class, the local part never backtracks; the
domain part does, so the matcher scans split positions of the maximal
domain-class run from the right. -/

/-- The class `[a-zA-Z0-9._%+-]` of the local part. -/
def localClass (c : Char) : Bool :=
  c.isAlpha || c.isDigit || c == '.' || c == '_' || c == '%' || c == '+' || c == '-'

/-- The class `[a-zA-Z0-9.-]` of the domain part. -/
def domainClass (c : Char) : Bool :=
  c.isAlpha || c.isDigit || c == '.' || c == '-'

/-- Backtracking over the split of the maximal domain-class run `M` into
`[a-zA-Z0-9.-]+ \. [a-zA-Z]{2,}`: the greedy `+` tries the longest domain
first, so the largest index `d` with `M[d] = '.'` followed by at least two
letters wins; the trailing `[a-zA-Z]{2,}` is greedy and takes the maximal
letter run. -/
def domGo (M : List Char) : Nat → Option (List Char)
  | 0 => none
  | d + 1 =>
    match M[d + 1]? with
    | some '.' =>
      let ls := (M.drop (d + 2)).takeWhile Char.isAlpha
      if 2 ≤ ls.length then some (M.take (d + 2) ++ ls) else domGo M d
    | _ => domGo M d

/-- Match `[a-zA-Z0-9.-]+\.[a-zA-Z]{2,}` against the maximal domain-class
run `M`. -/
def tryDomain (M : List Char) : Option (List Char) :=
  domGo M (M.length - 1)

/-- Attempt the whole email pattern anchored at the start of `s`. -/
def tryAt (s : List Char) : Option (List Char) :=
  let loc := s.takeWhile localClass
  if loc.isEmpty then none
  else
    match s.drop loc.length with
    | '@' :: t =>
      (tryDomain (t.takeWhile domainClass)).map (fun dm => loc ++ '@' :: dm)
    | _ => none

/-- `re.search`: try every start position left to right. -/
def reSearchEmail : List Char → Option (List Char)
  | [] => none
  | c :: t =>
    match tryAt (c :: t) with
    | some m => some m
    | none => reSearchEmail t

/-- The matched substring of the email pattern in `s`, if any
(`match.group()` of `re.search`). -/
def findEmail (s : String) : Option String :=
  (reSearchEmail s.data).map String.mk

/-! ## Per-record extraction -/

/-- One output row (`results.append({...})` in the source).  The
publication-date field is `Option String` because `pub_year` can be the
Python value `None` (see `pubYearOf`). -/
structure Row where
  pubmedID : String
  title : String
  publicationDate : Option String
  nonAcademicAuthors : String
  companyAffiliations : String
  correspondingEmail : String
deriving DecidableEq

/-- The affiliation of one author entry:
`affil_info = author.find("AffiliationInfo")`, then
`affil_info.findtext("Affiliation") if affil_info else None`.
An element is truthy in Python iff it has children. -/
def authorAffil (author : Elem) : Option String :=
  match findChild author "AffiliationInfo" with
  | none => none
  | some ai => if ai.children.isEmpty then none else findtextChild ai "Affiliation"

/-- The stripped f-string of `author.findtext` of `ForeName` and of
`LastName`, both with default `""`, joined by one space. -/
def displayName (author : Elem) : String :=
  trimStr (findtextChildD author "ForeName" "" ++ " " ++ findtextChildD author "LastName" "")

/-- The mutable state of the author loop. -/
structure LoopState where
  names : List String
  affs : List String
  email : String

/-- The body of `for author in authors_info`. -/
def procAuthor (st : LoopState) (author : Elem) : LoopState :=
  match authorAffil author with
  | none => st
  | some s =>
    if is_commercial (some s) then
      { names := st.names ++ (if displayName author = "" then [] else [displayName author])
        affs := st.affs ++ [s]
        email := (findEmail s).getD st.email }
    else st

/-- Run the author loop from the initial state
(`non_academic_authors = []`, `company_affiliations = []`,
`corresponding_email = "N/A"`). -/
def loopAuthors (authors : List Elem) : LoopState :=
  authors.foldl procAuthor { names := [], affs := [], email := "N/A" }

/-- The affiliation of an author when the classifier fires, else `none`
(the per-author condition of the loop, as a projection). -/
def classifiedAffil (author : Elem) : Option String :=
  match authorAffil author with
  | none => none
  | some s => if is_commercial (some s) then some s else none

/-- The affiliations that trigger classification, in author order. -/
def classifiedAffils (record : Elem) : List String :=
  (findAllDesc record "Author").filterMap classifiedAffil

/-- The name contributed by one author, if any. -/
def authorName (author : Elem) : Option String :=
  match authorAffil author with
  | none => none
  | some s =>
    if is_commercial (some s) then
      if displayName author = "" then none else some (displayName author)
    else none

/-- The email match contributed by one author, if any. -/
def authorEmail (author : Elem) : Option String :=
  match authorAffil author with
  | none => none
  | some s => if is_commercial (some s) then findEmail s else none

/-- `record.find(".//AuthorList/Author/CorrespondingAuthor")`: descendant
`AuthorList`, child `Author`, child `CorrespondingAuthor`, first match in
the nested traversal order of ElementTree. -/
def findCorrAuthor (record : Elem) : Option Elem :=
  (((descElems record).filter (fun c => c.tag == "AuthorList")).flatMap
    (fun al => (al.children.filter (fun c => c.tag == "Author")).flatMap
      (fun au => au.children.filter (fun c => c.tag == "CorrespondingAuthor")))).head?

/-- `corr_author.find("AffiliationInfo/Affiliation")`. -/
def findAffAff (corr : Elem) : Option Elem :=
  ((corr.children.filter (fun c => c.tag == "AffiliationInfo")).flatMap
    (fun ai => ai.children.filter (fun c => c.tag == "Affiliation"))).head?

/-- The secondary record-level probe (the inner `try` of the source).
`Except.error ()` marks the `TypeError` that `re.search` raises when the
`Affiliation` element exists but its text is `None`; it is caught by the
dedicated `except` and leaves the email unchanged. -/
def probeCorrEmail (record : Elem) : Except Unit (Option String) :=
  match findCorrAuthor record with
  | none => Except.ok none
  | some corr =>
    match findAffAff corr with
    | none => Except.ok none
    | some affEl =>
      match affEl.text with
      | none => Except.error ()
      | some t => Except.ok (findEmail t)

/-- The successful match of the probe, when it produces one. -/
def probeMatch (record : Elem) : Option String :=
  match probeCorrEmail record with
  | Except.ok (some m) => some m
  | _ => none

/-- The final value of `corresponding_email`: the loop value, possibly
overwritten by the record-level probe; a probe failure is swallowed. -/
def emailOf (record : Elem) : String :=
  match probeCorrEmail record with
  | Except.error _ => (loopAuthors (findAllDesc record "Author")).email
  | Except.ok none => (loopAuthors (findAllDesc record "Author")).email
  | Except.ok (some m) => m

/-- `record.findtext(".//ArticleTitle") or "N/A"`: Python `or` replaces
both `None` and the empty string by the default. -/
def titleOf (record : Elem) : String :=
  match findtextDesc record "ArticleTitle" with
  | none => "N/A"
  | some s => if s = "" then "N/A" else s

/-- `pub_date_element.findtext("Year") if pub_date_element else "N/A"`:
the element is truthy iff it has children, and `findtext` without a
default returns `None` when there is no `Year` child. -/
def pubYearOf (record : Elem) : Option String :=
  match findDesc record "PubDate" with
  | none => some "N/A"
  | some pd => if pd.children.isEmpty then some "N/A" else findtextChild pd "Year"

/-- `record.findtext(".//PMID") or "N/A"`. -/
def pmidOf (record : Elem) : String :=
  match findtextDesc record "PMID" with
  | none => "N/A"
  | some s => if s = "" then "N/A" else s

/-- `if year_filter and pub_year not in year_filter: continue`.
`year_filter` is falsy when `None` or empty; membership is exact string
equality, and a `None` year is in no list. -/
def yearSkip (year_filter : Option (List String)) (pub_year : Option String) : Bool :=
  match year_filter with
  | none => false
  | some l =>
    (!l.isEmpty) &&
      (match pub_year with
       | some y => !(l.contains y)
       | none => true)

/-- The row the source appends for a qualifying record. -/
def mkRow (record : Elem) : Row :=
  { pubmedID := pmidOf record
    title := titleOf record
    publicationDate := pubYearOf record
    nonAcademicAuthors := joinSemi (loopAuthors (findAllDesc record "Author")).names
    companyAffiliations :=
      joinSemi (List.insertionSort strLeRel
        (loopAuthors (findAllDesc record "Author")).affs.dedup)
    correspondingEmail := emailOf record }

/-- Per-record extraction: the body of `for record in records`.  A record
yields a row exactly when it survives the year filter and the author loop
collected at least one name. -/
def extractRecord (year_filter : Option (List String)) (record : Elem) : Option Row :=
  if yearSkip year_filter (pubYearOf record) then none
  else if (loopAuthors (findAllDesc record "Author")).names.isEmpty then none
  else some (mkRow record)

/-! ## Search-and-fetch orchestrator -/

/-- An upstream HTTP response: status code and the outcome of parsing its
body (`ET.fromstring` either yields a root element or raises
`ParseError`). -/
structure HttpResp where
  status : Nat
  body : Except Unit Elem

/-- Log lines guarded by the debug flag. -/
def dbgIf (debug : Bool) (msg : String) : List String :=
  if debug then [msg] else []

/-- `fetch_pubmed_data(query, limit, year_filter, debug)` over abstract
upstream outcomes `searchR` and `fetchR` (`Except.error ()` models a
`requests.RequestException`).  The first component is the value the Python
function returns, with `Except.error` marking an exception escaping to the
caller; the second is the diagnostic output.  The only escaping exception
is the `TypeError` from `",".join(id_list)` when some `Id` element has no
text. -/
def fetch_pubmed_data (query : String) (limit : Nat)
    (searchR fetchR : Except Unit HttpResp)
    (year_filter : Option (List String)) (debug : Bool) :
    Except String (List Row) × List String :=
  let log0 := dbgIf debug ("[Debug] Searching PubMed with query: " ++ query ++
    " and limit: " ++ toString limit)
  match searchR with
  | Except.error _ => (Except.ok [], log0 ++ dbgIf debug "[Search Error] Request failed")
  | Except.ok resp =>
    if 400 ≤ resp.status ∧ resp.status < 600 then
      (Except.ok [], log0 ++ dbgIf debug "[Search Error] Request failed")
    else if resp.status ≠ 200 then
      (Except.ok [], log0 ++ dbgIf debug "[Search Error] Status code")
    else
      match resp.body with
      | Except.error _ =>
        (Except.ok [], log0 ++ dbgIf debug "[Search Error] Failed to parse XML")
      | Except.ok root =>
        let id_list := (findAllDesc root "Id").map Elem.text
        if id_list.isEmpty then
          (Except.ok [], log0 ++ dbgIf debug "[Search Result] No IDs found.")
        else
          let log1 := log0 ++ dbgIf debug "[Debug] Found paper IDs."
          if id_list.any Option.isNone then
            (Except.error "TypeError: sequence item: expected str instance, NoneType found",
             log1)
          else
            match fetchR with
            | Except.error _ =>
              (Except.ok [], log1 ++ dbgIf debug "[Fetch Error] Request failed")
            | Except.ok fresp =>
              if 400 ≤ fresp.status ∧ fresp.status < 600 then
                (Except.ok [], log1 ++ dbgIf debug "[Fetch Error] Request failed")
              else if fresp.status ≠ 200 then
                (Except.ok [], log1 ++ dbgIf debug "[Fetch Error] Status code")
              else
                match fresp.body with
                | Except.error _ =>
                  (Except.ok [], log1 ++ dbgIf debug "[Fetch Error] Failed to parse XML")
                | Except.ok froot =>
                  let records := findAllDesc froot "PubmedArticle"
                  (Except.ok (records.filterMap (extractRecord year_filter)),
                   log1 ++ dbgIf debug "[Debug] Finished parsing.")

/-! ## Concrete records used by counterexamples and witnesses -/

/-- An author whose affiliation matches the keyword set but whose name
elements are absent, so the trimmed display name is empty. -/
def namelessAuthor : Elem :=
  elem "Author" none
    [elem "AffiliationInfo" none [elem "Affiliation" (some "Acme Pharma") []]]

/-- A record whose only author is `namelessAuthor`. -/
def namelessRec : Elem :=
  elem "PubmedArticle" none
    [elem "MedlineCitation" none
      [elem "PMID" (some "11") [],
       elem "Article" none
         [elem "ArticleTitle" (some "T1") [],
          elem "AuthorList" none [namelessAuthor]]]]

def authorOne : Elem :=
  elem "Author" none
    [elem "LastName" (some "One") [],
     elem "ForeName" (some "A") [],
     elem "AffiliationInfo" none
       [elem "Affiliation" (some "Acme Pharma a@x.com") []]]

def authorTwo : Elem :=
  elem "Author" none
    [elem "LastName" (some "Two") [],
     elem "ForeName" (some "B") [],
     elem "AffiliationInfo" none
       [elem "Affiliation" (some "Beta Biotech b@y.com") []]]

/-- A record with two commercial authors whose affiliations both contain
an email address, year 2021, and no corresponding-author element. -/
def twoEmailRec : Elem :=
  elem "PubmedArticle" none
    [elem "MedlineCitation" none
      [elem "PMID" (some "1") [],
       elem "Article" none
         [elem "ArticleTitle" (some "T") [],
          elem "Journal" none
            [elem "JournalIssue" none
              [elem "PubDate" none [elem "Year" (some "2021") []]]],
          elem "AuthorList" none [authorOne, authorTwo]]]]

/-- The row the pipeline produces for `twoEmailRec`. -/
def twoEmailRow : Row :=
  { pubmedID := "1"
    title := "T"
    publicationDate := some "2021"
    nonAcademicAuthors := "A One; B Two"
    companyAffiliations := "Acme Pharma a@x.com; Beta Biotech b@y.com"
    correspondingEmail := "b@y.com" }

/-- A record whose `PubDate` has a `Month` child but no `Year` child. -/
def monthOnlyRec : Elem :=
  elem "PubmedArticle" none
    [elem "MedlineCitation" none
      [elem "PMID" (some "123") [],
       elem "Article" none
         [elem "ArticleTitle" (some "T2") [],
          elem "Journal" none
            [elem "JournalIssue" none
              [elem "PubDate" none [elem "Month" (some "Jan") []]]],
          elem "AuthorList" none [authorTwo]]]]

/-- An esearch response body containing an `Id` element with no text. -/
def emptyIdSearchRoot : Elem :=
  elem "eSearchResult" none
    [elem "IdList" none [elem "Id" none []]]

/-- A record whose corresponding-author probe raises: the
`CorrespondingAuthor` has an `Affiliation` element with no text. -/
def probeErrRec : Elem :=
  elem "PubmedArticle" none
    [elem "MedlineCitation" none
      [elem "PMID" (some "9") [],
       elem "Article" none
         [elem "ArticleTitle" (some "T3") [],
          elem "AuthorList" none
            [elem "Author" none
              [elem "LastName" (some "Roe") [],
               elem "ForeName" (some "Jo") [],
               elem "AffiliationInfo" none
                 [elem "Affiliation" (some "BioTech Ltd jo@roe.org") []],
               elem "CorrespondingAuthor" none
                 [elem "AffiliationInfo" none
                   [elem "Affiliation" none []]]]]]]]

/-! ## Helper lemmas -/

theorem isPrefixOf_eq_true (p : List Char) :
    ∀ l : List Char, p.isPrefixOf l = true ↔ ∃ t, l = p ++ t := by
  induction p with
  | nil =>
    intro l
    simp [List.isPrefixOf]
  | cons a as ih =>
    intro l
    cases l with
    | nil => simp [List.isPrefixOf]
    | cons b bs =>
      simp only [List.isPrefixOf, Bool.and_eq_true, beq_iff_eq, ih, List.cons_append,
        List.cons.injEq]
      constructor
      · rintro ⟨rfl, t, rfl⟩
        exact ⟨t, rfl, rfl⟩
      · rintro ⟨t, rfl, rfl⟩
        exact ⟨rfl, t, rfl⟩

theorem hasSubstr_iff (n : List Char) :
    ∀ h : List Char, hasSubstr n h = true ↔ ∃ pre post, h = pre ++ n ++ post := by
  intro h
  induction h with
  | nil =>
    simp only [hasSubstr, List.isEmpty_iff]
    constructor
    · rintro rfl
      exact ⟨[], [], rfl⟩
    · rintro ⟨pre, post, hsplit⟩
      rcases List.append_eq_nil.1 (List.append_eq_nil.1 hsplit.symm).1 with ⟨-, h1⟩
      exact h1
  | cons c t ih =>
    simp only [hasSubstr, Bool.or_eq_true, isPrefixOf_eq_true, ih]
    constructor
    · rintro (⟨u, hu⟩ | ⟨pre, post, hsplit⟩)
      · exact ⟨[], u, by simpa using hu⟩
      · exact ⟨c :: pre, post, by simp [hsplit]⟩
    · rintro ⟨pre, post, hsplit⟩
      cases pre with
      | nil =>
        exact Or.inl ⟨post, by simpa using hsplit⟩
      | cons d ds =>
        simp only [List.cons_append, List.cons.injEq] at hsplit
        exact Or.inr ⟨ds, post, hsplit.2⟩

/-- Claim C4: the classifier returns false for an absent affiliation, and
for a present one returns true iff its lowercasing contains one of the
thirteen fixed keywords as a substring. -/
theorem is_commercial_keyword_spec :
    is_commercial none = false ∧
    PHARMA_KEYWORDS = ["pharma", "biotech", "therapeutics", "genomics",
      "diagnostics", "inc", "corp", "ltd", "gmbh", "s.a.", "s.r.l",
      "pharmaceutical", "biotechnology"] ∧
    ∀ s : String, (is_commercial (some s) = true ↔
      ∃ k ∈ PHARMA_KEYWORDS,
        ∃ pre post : List Char, (lowerStr s).data = pre ++ (lowerStr k).data ++ post) := by
  refine ⟨rfl, rfl, fun s => ?_⟩
  simp only [is_commercial, Bool.and_eq_true, List.any_eq_true]
  constructor
  · rintro ⟨-, k, hk, hsub⟩
    exact ⟨k, hk, (hasSubstr_iff _ _).1 hsub⟩
  · rintro ⟨k, hk, pre, post, hdecomp⟩
    refine ⟨?_, k, hk, (hasSubstr_iff _ _).2 ⟨pre, post, hdecomp⟩⟩
    have hkne : (lowerStr k).data ≠ [] := by
      simp only [PHARMA_KEYWORDS, List.mem_cons, List.not_mem_nil, or_false] at hk
      rcases hk with rfl | rfl | rfl | rfl | rfl | rfl | rfl | rfl | rfl | rfl | rfl | rfl | rfl <;>
        decide
    have hs : (lowerStr s).data ≠ [] := by
      rw [hdecomp]
      simp [hkne]
    have hne : ¬ s = "" := by
      rintro rfl
      exact hs rfl
    simp [hne]

theorem loop_names (l : List Elem) :
    ∀ st : LoopState, (l.foldl procAuthor st).names = st.names ++ l.filterMap authorName := by
  induction l with
  | nil => intro st; simp
  | cons a l ih =>
    intro st
    simp only [List.foldl_cons, List.filterMap_cons]
    cases ha : authorAffil a with
    | none =>
      simp [procAuthor, ha, authorName, ih]
    | some s =>
      by_cases hc : is_commercial (some s) = true
      · by_cases hn : displayName a = ""
        · simp [procAuthor, ha, hc, hn, authorName, ih]
        · simp [procAuthor, ha, hc, hn, authorName, ih]
      · simp [procAuthor, ha, hc, authorName, ih]

theorem loop_affs (l : List Elem) :
    ∀ st : LoopState, (l.foldl procAuthor st).affs = st.affs ++ l.filterMap classifiedAffil := by
  induction l with
  | nil => intro st; simp
  | cons a l ih =>
    intro st
    simp only [List.foldl_cons, List.filterMap_cons]
    cases ha : authorAffil a with
    | none =>
      simp [procAuthor, ha, classifiedAffil, ih]
    | some s =>
      by_cases hc : is_commercial (some s) = true
      · simp [procAuthor, ha, hc, classifiedAffil, ih]
      · simp [procAuthor, ha, hc, classifiedAffil, ih]

theorem getLast?_cons_getD : ∀ (l : List String) (x d : String),
    ((x :: l).getLast?).getD d = (l.getLast?).getD x
  | [], _, _ => rfl
  | y :: t, x, d => by
    rw [List.getLast?_cons_cons]
    exact (getLast?_cons_getD t y d).trans (getLast?_cons_getD t y x).symm

theorem loop_email (l : List Elem) :
    ∀ st : LoopState,
      (l.foldl procAuthor st).email = ((l.filterMap authorEmail).getLast?).getD st.email := by
  induction l with
  | nil => intro st; simp
  | cons a l ih =>
    intro st
    simp only [List.foldl_cons, List.filterMap_cons]
    cases ha : authorAffil a with
    | none =>
      simp [procAuthor, ha, authorEmail, ih]
    | some s =>
      by_cases hc : is_commercial (some s) = true
      · cases he : findEmail s with
        | none => simp [procAuthor, ha, hc, he, authorEmail, ih]
        | some m =>
          simp only [procAuthor, ha, hc, if_true, authorEmail, he, Option.getD_some, ih,
            getLast?_cons_getD]
      · simp [procAuthor, ha, hc, authorEmail, ih]

theorem extractRecord_eq_some_iff (yf : Option (List String)) (record : Elem) (row : Row) :
    extractRecord yf record = some row ↔
      yearSkip yf (pubYearOf record) = false ∧
      (loopAuthors (findAllDesc record "Author")).names ≠ [] ∧
      row = mkRow record := by
  unfold extractRecord
  by_cases h1 : yearSkip yf (pubYearOf record) = true
  · simp [h1]
  · by_cases h2 : (loopAuthors (findAllDesc record "Author")).names.isEmpty = true
    · simp_all [List.isEmpty_iff]
    · simp_all [List.isEmpty_iff]
      exact eq_comm

theorem loop_names_filterMap (record : Elem) :
    (loopAuthors (findAllDesc record "Author")).names =
      (findAllDesc record "Author").filterMap authorName := by
  simpa [loopAuthors] using loop_names (findAllDesc record "Author")
    { names := [], affs := [], email := "N/A" }

theorem loop_affs_filterMap (record : Elem) :
    (loopAuthors (findAllDesc record "Author")).affs = classifiedAffils record := by
  simpa [loopAuthors, classifiedAffils] using loop_affs (findAllDesc record "Author")
    { names := [], affs := [], email := "N/A" }

theorem loop_email_classified (record : Elem) :
    (loopAuthors (findAllDesc record "Author")).email =
      (((classifiedAffils record).filterMap findEmail).getLast?).getD "N/A" := by
  have hfm : (classifiedAffils record).filterMap findEmail =
      (findAllDesc record "Author").filterMap authorEmail := by
    rw [classifiedAffils, List.filterMap_filterMap]
    have hfun : (fun a => (classifiedAffil a).bind findEmail) = authorEmail := by
      funext a
      cases ha : authorAffil a with
      | none => simp [classifiedAffil, authorEmail, ha]
      | some s =>
        by_cases hc : is_commercial (some s) = true
        · simp [classifiedAffil, authorEmail, ha, hc]
        · simp [classifiedAffil, authorEmail, ha, hc]
    rw [hfun]
  rw [hfm]
  simpa [loopAuthors] using loop_email (findAllDesc record "Author")
    { names := [], affs := [], email := "N/A" }

theorem emailOf_eq (record : Elem) :
    emailOf record =
      match probeMatch record with
      | some m => m
      | none => (((classifiedAffils record).filterMap findEmail).getLast?).getD "N/A" := by
  unfold emailOf probeMatch
  cases hp : probeCorrEmail record with
  | error e => exact loop_email_classified record
  | ok o =>
    cases o with
    | none => exact loop_email_classified record
    | some m => rfl

theorem authorName_isSome_iff (a : Elem) :
    (authorName a).isSome = true ↔
      is_commercial (authorAffil a) = true ∧ displayName a ≠ "" := by
  unfold authorName
  cases ha : authorAffil a with
  | none => simp [is_commercial]
  | some s =>
    by_cases hc : is_commercial (some s) = true
    · by_cases hn : displayName a = "" <;> simp [hc, hn]
    · simp [hc]

/-- Claim C1, amended: with an empty year filter, a row is produced for a
record iff at least one of its authors both has a classifier-matching
affiliation and contributes a non-empty trimmed display name.  (The
original claim, without the display-name condition, is refuted by
`row_emission_not_iff_commercial_alone`.) -/
theorem row_emission_iff_named_commercial_author (record : Elem) :
    (extractRecord none record).isSome = true ↔
      ∃ a ∈ findAllDesc record "Author",
        is_commercial (authorAffil a) = true ∧ displayName a ≠ "" := by
  have hn : (loopAuthors (findAllDesc record "Author")).names =
      (findAllDesc record "Author").filterMap authorName := loop_names_filterMap record
  have h1 : (extractRecord none record).isSome = true ↔
      ¬ (findAllDesc record "Author").filterMap authorName = [] := by
    unfold extractRecord
    by_cases h : (findAllDesc record "Author").filterMap authorName = []
    · simp [yearSkip, hn, h]
    · simp [yearSkip, hn, h]
  rw [h1, List.filterMap_eq_nil_iff]
  push_neg
  refine exists_congr fun a => and_congr_right fun _ => ?_
  rw [← authorName_isSome_iff, ← Option.isSome_iff_ne_none]

/-- Claim C1, counterexample to the original statement: `namelessRec` has
an author whose affiliation matches the keyword set, yet no row is
produced, because the author has no name elements. -/
theorem row_emission_not_iff_commercial_alone :
    extractRecord none namelessRec = none ∧
    ∃ a ∈ findAllDesc namelessRec "Author", is_commercial (authorAffil a) = true := by
  refine ⟨by decide, namelessAuthor, ?_, by decide⟩
  have h : findAllDesc namelessRec "Author" = [namelessAuthor] := rfl
  rw [h]
  exact List.mem_singleton_self _

/-- Claim C3: the email variable after the author loop is the last email
match among the affiliations of classified authors (default `"N/A"`), and
the record-level corresponding-author probe, whenever it yields a match,
overwrites that value unconditionally. -/
theorem email_var_last_match_and_unconditional_probe (record : Elem) :
    (loopAuthors (findAllDesc record "Author")).email =
      (((classifiedAffils record).filterMap findEmail).getLast?).getD "N/A" ∧
    emailOf record =
      (match probeMatch record with
       | some m => m
       | none => (loopAuthors (findAllDesc record "Author")).email) := by
  refine ⟨loop_email_classified record, ?_⟩
  unfold emailOf probeMatch
  cases hp : probeCorrEmail record with
  | error e => rfl
  | ok o => cases o with
    | none => rfl
    | some m => rfl

/-- Claim C2, amended: the email field of an emitted row is the last (not
first) email match among the affiliations of classified authors, except that
a successful corresponding-author probe overwrites it unconditionally;
`"N/A"` when neither path yields a match. -/
theorem row_email_last_author_match_probe_override (record : Elem)
    (yf : Option (List String)) (row : Row)
    (h : extractRecord yf record = some row) :
    row.correspondingEmail =
      match probeMatch record with
      | some m => m
      | none => (((classifiedAffils record).filterMap findEmail).getLast?).getD "N/A" := by
  obtain ⟨-, -, hrow⟩ := (extractRecord_eq_some_iff yf record row).1 h
  rw [hrow]
  exact emailOf_eq record

/-- Claim C2, witness: the amended statement evaluated on `twoEmailRec`. -/
theorem row_email_last_author_match_probe_override_witness :
    twoEmailRow.correspondingEmail =
      match probeMatch twoEmailRec with
      | some m => m
      | none => (((classifiedAffils twoEmailRec).filterMap findEmail).getLast?).getD "N/A" :=
  row_email_last_author_match_probe_override twoEmailRec none twoEmailRow (by decide)

/-- Claim C2, counterexample to the original statement: in `twoEmailRec`
both classified authors carry an email and there is no corresponding-author
element, yet the emitted field is the second match, not the first. -/
theorem row_email_not_first_match :
    (extractRecord none twoEmailRec).map Row.correspondingEmail = some "b@y.com" ∧
    ((classifiedAffils twoEmailRec).filterMap findEmail).head? = some "a@x.com" ∧
    probeCorrEmail twoEmailRec = Except.ok none ∧
    ("b@y.com" : String) ≠ "a@x.com" :=
  ⟨by decide, by decide, rfl, by decide⟩

theorem lexLe_total : ∀ x y : List Char, lexLe x y = true ∨ lexLe y x = true := by
  intro x
  induction x with
  | nil => intro y; exact Or.inl rfl
  | cons c cs ih =>
    intro y
    cases y with
    | nil => exact Or.inr rfl
    | cons d ds =>
      rcases Nat.lt_trichotomy c.toNat d.toNat with h | h | h
      · left; simp [lexLe, h]
      · have h1 : ¬ c.toNat < d.toNat := by omega
        have h2 : ¬ d.toNat < c.toNat := by omega
        rcases ih ds with hcd | hdc
        · left; simp [lexLe, h1, h2, hcd]
        · right; simp [lexLe, h1, h2, hdc]
      · right; simp [lexLe, h]

theorem lexLe_trans :
    ∀ x y z : List Char, lexLe x y = true → lexLe y z = true → lexLe x z = true := by
  intro x
  induction x with
  | nil => intro y z h1 h2; rfl
  | cons c cs ih =>
    intro y z h1 h2
    cases y with
    | nil => simp [lexLe] at h1
    | cons d ds =>
      cases z with
      | nil => simp [lexLe] at h2
      | cons e es =>
        by_cases hcd : c.toNat < d.toNat
        · by_cases hde : d.toNat < e.toNat
          · have hce : c.toNat < e.toNat := Nat.lt_trans hcd hde
            simp [lexLe, hce]
          · by_cases hed : e.toNat < d.toNat
            · simp [lexLe, hde, hed] at h2
            · have hce : c.toNat < e.toNat := by omega
              simp [lexLe, hce]
        · by_cases hdc : d.toNat < c.toNat
          · simp [lexLe, hcd, hdc] at h1
          · have h1 : lexLe cs ds = true := by simpa [lexLe, hcd, hdc] using h1
            by_cases hde : d.toNat < e.toNat
            · have hce : c.toNat < e.toNat := by omega
              simp [lexLe, hce]
            · by_cases hed : e.toNat < d.toNat
              · simp [lexLe, hde, hed] at h2
              · have h2 : lexLe ds es = true := by simpa [lexLe, hde, hed] using h2
                have hce1 : ¬ c.toNat < e.toNat := by omega
                have hce2 : ¬ e.toNat < c.toNat := by omega
                simp [lexLe, hce1, hce2]
                exact ih ds es h1 h2

instance : IsTotal String strLeRel :=
  ⟨fun a b => lexLe_total a.data b.data⟩

instance : IsTrans String strLeRel :=
  ⟨fun a b c => lexLe_trans a.data b.data c.data⟩

/-- Claim C5: when a non-empty year filter does not contain the
publication-year string of the record (exact string equality), the record yields
none, regardless of its authors; with an empty filter no record is skipped
on year grounds — the outcome then depends only on the author loop. -/
theorem year_filter_exact_skip (record : Elem) (l : List String) (y : String)
    (hl : l ≠ []) (hy : pubYearOf record = some y) (hmem : y ∉ l) :
    extractRecord (some l) record = none ∧
    extractRecord (some []) record = extractRecord none record ∧
    (extractRecord none record = none ↔
      (loopAuthors (findAllDesc record "Author")).names = []) := by
  refine ⟨?_, rfl, ?_⟩
  · have hskip : yearSkip (some l) (pubYearOf record) = true := by
      rw [hy]
      simp [yearSkip, List.isEmpty_iff, hl, hmem]
    unfold extractRecord
    simp [hskip]
  · unfold extractRecord
    by_cases h2 : (loopAuthors (findAllDesc record "Author")).names.isEmpty
    · have hnil : (loopAuthors (findAllDesc record "Author")).names = [] := by
        simpa [List.isEmpty_iff] using h2
      simp [yearSkip, h2, hnil]
    · have hnil : ¬ (loopAuthors (findAllDesc record "Author")).names = [] := by
        simpa [List.isEmpty_iff] using h2
      simp [yearSkip, h2, hnil]

/-- Claim C5, witness: a record with year "2021" and commercial authors is
skipped by the filter `["2020", "2022"]`. -/
theorem year_filter_exact_skip_witness :
    extractRecord (some ["2020", "2022"]) twoEmailRec = none ∧
    extractRecord (some []) twoEmailRec = extractRecord none twoEmailRec ∧
    (extractRecord none twoEmailRec = none ↔
      (loopAuthors (findAllDesc twoEmailRec "Author")).names = []) :=
  year_filter_exact_skip twoEmailRec ["2020", "2022"] "2021" (by decide) (by decide)
    (by decide)

/-- Claim C7: the company-affiliation field of every emitted row is the
semicolon-join of a list that has no duplicates, is lexicographically
sorted, and contains exactly the triggering affiliation strings, each
exactly once. -/
theorem company_affiliations_sorted_dedup (record : Elem)
    (yf : Option (List String)) (row : Row)
    (h : extractRecord yf record = some row) :
    ∃ l : List String,
      row.companyAffiliations = joinSemi l ∧
      l.Nodup ∧
      l.Sorted strLeRel ∧
      (∀ s, s ∈ l ↔ s ∈ classifiedAffils record) ∧
      (∀ s ∈ classifiedAffils record, l.count s = 1) := by
  obtain ⟨-, -, hrow⟩ := (extractRecord_eq_some_iff yf record row).1 h
  rw [hrow]
  have hnd : (List.insertionSort strLeRel
      (loopAuthors (findAllDesc record "Author")).affs.dedup).Nodup :=
    ((List.perm_insertionSort _ _).nodup_iff).2 (List.nodup_dedup _)
  have hmem : ∀ s, s ∈ List.insertionSort strLeRel
      (loopAuthors (findAllDesc record "Author")).affs.dedup ↔
      s ∈ classifiedAffils record := by
    intro s
    rw [(List.perm_insertionSort _ _).mem_iff, List.mem_dedup, loop_affs_filterMap]
  refine ⟨List.insertionSort strLeRel
      (loopAuthors (findAllDesc record "Author")).affs.dedup,
    rfl, hnd, List.sorted_insertionSort _ _, hmem, ?_⟩
  intro s hs
  exact List.count_eq_one_of_mem hnd ((hmem s).2 hs)

/-- Claim C7, witness: the sorted, deduplicated affiliation list of the
row produced for `twoEmailRec`. -/
theorem company_affiliations_sorted_dedup_witness :
    ∃ l : List String,
      twoEmailRow.companyAffiliations = joinSemi l ∧
      l.Nodup ∧
      l.Sorted strLeRel ∧
      (∀ s, s ∈ l ↔ s ∈ classifiedAffils twoEmailRec) ∧
      (∀ s ∈ classifiedAffils twoEmailRec, l.count s = 1) :=
  company_affiliations_sorted_dedup twoEmailRec none twoEmailRow (by decide)

/-- Claim C6, refuting evaluation: for a record whose `PubDate` has a
`Month` child but no `Year` child, the publication-date field of the
emitted row is the absent value (Python `None`), not the claimed `"N/A"`,
while identifier and title default correctly. -/
theorem pub_year_missing_not_na :
    (extractRecord none monthOnlyRec).map Row.publicationDate = some none ∧
    pmidOf monthOnlyRec = "123" ∧
    titleOf monthOnlyRec = "T2" :=
  ⟨by decide, by decide, by decide⟩

/-- Claim C8, refuting evaluation: a 200 search response whose body is
well-formed XML containing an `Id` element with no text makes
`fetch_pubmed_data` raise `TypeError` from `",".join(id_list)` — an
exception escapes to the caller instead of an empty sequence. -/
theorem id_without_text_raises :
    (fetch_pubmed_data "cancer" 50 (Except.ok ⟨200, Except.ok emptyIdSearchRoot⟩)
      (Except.error ()) none false).1 =
    Except.error "TypeError: sequence item: expected str instance, NoneType found" := rfl

/-- Claim C10: a failure inside the corresponding-author probe (for
example an `Affiliation` element that exists but has no text) is swallowed
by the dedicated handler: the email keeps the per-author loop value, and
emission of the record is decided solely by the year filter and the
collected names. -/
theorem probe_error_swallowed (record : Elem) (yf : Option (List String))
    (h : probeCorrEmail record = Except.error ()) :
    emailOf record = (loopAuthors (findAllDesc record "Author")).email ∧
    (extractRecord yf record = none ↔
      (yearSkip yf (pubYearOf record) = true ∨
       (loopAuthors (findAllDesc record "Author")).names = [])) := by
  constructor
  · unfold emailOf
    rw [h]
  · unfold extractRecord
    by_cases h1 : yearSkip yf (pubYearOf record) = true
    · simp [h1]
    · by_cases h2 : (loopAuthors (findAllDesc record "Author")).names.isEmpty
      · have hnil : (loopAuthors (findAllDesc record "Author")).names = [] := by
          simpa [List.isEmpty_iff] using h2
        simp [h1, h2, hnil]
      · have hnil : ¬ (loopAuthors (findAllDesc record "Author")).names = [] := by
          simpa [List.isEmpty_iff] using h2
        simp [h1, h2, hnil]

/-- Claim C10, witness: in `probeErrRec` the corresponding author has an
`Affiliation` element with no text, the probe raises, and the record is
still processed from the loop state alone. -/
theorem probe_error_swallowed_witness :
    emailOf probeErrRec = (loopAuthors (findAllDesc probeErrRec "Author")).email ∧
    (extractRecord none probeErrRec = none ↔
      (yearSkip none (pubYearOf probeErrRec) = true ∨
       (loopAuthors (findAllDesc probeErrRec "Author")).names = [])) :=
  probe_error_swallowed probeErrRec none rfl

/-- Claim C9: for every query, limit, year filter and fixed pair of
upstream responses, the sequence returned with `debug = true` is the one
returned with `debug = false`; the flag only changes the diagnostic log. -/
theorem debug_flag_does_not_alter_result (query : String) (limit : Nat)
    (searchR fetchR : Except Unit HttpResp) (year_filter : Option (List String)) :
    (fetch_pubmed_data query limit searchR fetchR year_filter true).1 =
    (fetch_pubmed_data query limit searchR fetchR year_filter false).1 := by
  unfold fetch_pubmed_data
  cases searchR with
  | error e => rfl
  | ok resp =>
    by_cases h1 : 400 ≤ resp.status ∧ resp.status < 600
    · simp [h1]
    · by_cases h2 : resp.status = 200
      · cases hb : resp.body with
        | error e => simp [h1, h2, hb]
        | ok root =>
          by_cases h3 : ((findAllDesc root "Id").map Elem.text).isEmpty
          · simp [h1, h2, hb, h3]
          · by_cases h4 : ((findAllDesc root "Id").map Elem.text).any Option.isNone
            · simp [h1, h2, hb, h3, h4]
            · cases fetchR with
              | error e => simp [h1, h2, hb, h3, h4]
              | ok fresp =>
                by_cases h5 : 400 ≤ fresp.status ∧ fresp.status < 600
                · simp [h1, h2, hb, h3, h4, h5]
                · by_cases h6 : fresp.status = 200
                  · cases hfb : fresp.body with
                    | error e => simp [h1, h2, hb, h3, h4, h5, h6, hfb]
                    | ok froot => simp [h1, h2, hb, h3, h4, h5, h6, hfb]
                  · simp [h1, h2, hb, h3, h4, h5, h6]
      · simp [h1, h2]
